import Mathlib

/-!
Verification of the crawl-orchestration core of a web-page scraper.

This file gives a shallow embedding, in Lean, of the pure decision logic of
the scraper sources (`src/facebook/src/functions.ts` and the orchestrator
entry point), and proves or refutes the documented properties of that logic.

Modelling conventions:
* Timestamps are integers (milliseconds since the epoch), matching the
  values produced by `moment(..)` / `Date.prototype.getTime`.
* JavaScript numbers used for counting are modelled with `Int` / `Nat` /
  `Rat`. Where the source's IEEE double arithmetic is observable in a
  compared result — the statistical sampler's ratio thresholds in
  `isOver()` — the binary64 rounding of every intermediate value (each
  division, the sum, and the numeric literals) is modelled explicitly by
  `roundToDouble`; the remaining numeric code is modelled with exact
  rationals.
* A function that can throw is embedded with `Except` / `Option`.
* URL objects are embedded as a record of the components the code touches
  (protocol, hostname, pathname, searchParams); serialization and parsing
  of the canonical `scheme://host/path?query` shape are modelled explicitly
  because the source manipulates URLs both as objects and as strings.
-/

/-! ## Date windows (`minMaxDates`, functions.ts lines 995-1024) -/

/-- A resolved date window: optional minimum and maximum bounds, in
milliseconds, as produced by `parseTimeUnit` in the source. -/
structure Window where
  minDate : Option Int
  maxDate : Option Int
deriving DecidableEq

/-- Embeds `minMaxDates` (functions.ts 995-1001): construction throws when
both bounds resolve and `maxDate.diff(minDate) < 0`, i.e. the maximum is
chronologically before the minimum. -/
def minMaxDates (mn mx : Option Int) : Except String Window :=
  match mn, mx with
  | some minD, some maxD =>
      if maxD - minD < 0 then
        Except.error "Minimum date needs to be less than max date"
      else
        Except.ok ⟨some minD, some maxD⟩
  | _, _ => Except.ok ⟨mn, mx⟩

/-- Embeds the returned `compare` closure (functions.ts 1019-1022):
`(minDate ? minDate.diff(base) <= 0 : true) && (maxDate ? maxDate.diff(base) >= 0 : true)`,
where `a.diff(b) = a - b` in milliseconds. -/
def Window.compare (w : Window) (t : Int) : Bool :=
  (match w.minDate with
    | some minD => decide (minD - t ≤ 0)
    | none => true) &&
  (match w.maxDate with
    | some maxD => decide (maxD - t ≥ 0)
    | none => true)

/-- Written from the spec wording (refinement target for C4/C6): inclusive
on both bounds, an unset bound always matches its side. -/
def compareSpecInclusive (mn mx : Option Int) (t : Int) : Bool :=
  (match mn with
    | some minD => decide (minD ≤ t)
    | none => true) &&
  (match mx with
    | some maxD => decide (t ≤ maxD)
    | none => true)

/-! ## Date-windowed statistical sampler (`dateRangeItemCounter`,
functions.ts lines 1173-1257) -/

/-- The mutable counters captured by the `dateRangeItemCounter` closure. -/
structure DateCounter where
  total : Int
  maxOlder : Nat
  maxNewer : Nat
  minOlder : Nat
  minNewer : Nat
  outOfRange : Nat
  empty : Nat
  inRange : Nat
  calls : Nat
deriving DecidableEq

/-- Initial counter values (all zero). -/
def DateCounter.init : DateCounter := ⟨0, 0, 0, 0, 0, 0, 0, 0, 0⟩

/-- Embeds `willCheckRange = !!minMax.maxDate && !!minMax.minDate`
(functions.ts 1187), captured once at counter creation. -/
def willCheckRange (w : Window) : Bool :=
  w.maxDate.isSome && w.minDate.isSome

/-- Embeds the `empty(predicate)` method (functions.ts 1201-1209). -/
def DateCounter.emptyStep (s : DateCounter) (predicate : Bool) : DateCounter :=
  { s with calls := s.calls + 1
           empty := if predicate then s.empty + 1 else s.empty }

/-- Embeds the `add(value)` method (functions.ts 1210-1216). -/
def DateCounter.add (s : DateCounter) (value : Int) : DateCounter :=
  { s with calls := s.calls + 1, total := s.total + value }

/-- Embeds the `time(value)` method (functions.ts 1217-1248): classifies a
timestamp against the window and updates the in/out-of-range counters and
the per-bound buckets. Returns the updated state and the compare result. -/
def DateCounter.time (s : DateCounter) (w : Window) (value : Int) :
    DateCounter × Bool :=
  if w.compare value then
    ({ s with inRange := s.inRange + 1 }, true)
  else
    let s1 := { s with outOfRange := s.outOfRange + 1 }
    let s2 :=
      match w.maxDate with
      | some maxD =>
          if maxD - value > 0 then { s1 with maxOlder := s1.maxOlder + 1 }
          else if maxD - value < 0 then { s1 with maxNewer := s1.maxNewer + 1 }
          else s1
      | none => s1
    let s3 :=
      match w.minDate with
      | some minD =>
          if minD - value < 0 then { s2 with minNewer := s2.minNewer + 1 }
          else if minD - value > 0 then { s2 with minOlder := s2.minOlder + 1 }
          else s2
      | none => s2
    (s3, false)

/-- Rounds a rational to the nearest integer, ties going to the even
integer: the IEEE 754 default treatment of a value that falls exactly
between two representable neighbours. -/
def roundHalfEven (x : ℚ) : ℤ :=
  if x - ⌊x⌋ < 1 / 2 then ⌊x⌋
  else if x - ⌊x⌋ > 1 / 2 then ⌊x⌋ + 1
  else if ⌊x⌋ % 2 = 0 then ⌊x⌋ else ⌊x⌋ + 1

/-- The binary64 (IEEE 754 double precision) rounding of a rational: the
53-bit round-to-nearest-even value `m * 2 ^ (e - 52)` where
`2 ^ e ≤ |q| < 2 ^ (e + 1)`; zero maps to zero. The subnormal and overflow
regimes are not given their special IEEE treatment; in this development the
rounded values only feed the threshold comparisons of `isOver()` against
0.95 and 0.8, whose verdicts agree with full IEEE semantics there: a value
below the normal range is far below either threshold under both readings,
and a value beyond the normal range (infinity in IEEE) is far above. -/
def roundToDouble (q : ℚ) : ℚ :=
  if 0 < q then
    (roundHalfEven (q * 2 ^ ((52 : ℤ) - Int.log 2 q)) : ℚ) * 2 ^ (Int.log 2 q - 52)
  else if q < 0 then
    -((roundHalfEven (-q * 2 ^ ((52 : ℤ) - Int.log 2 (-q))) : ℚ) * 2 ^ (Int.log 2 (-q) - 52))
  else 0

/-- Embeds the `isOver()` method (functions.ts 1249-1255):
`calls > 0 && total > 0 ? (willCheckRange && inRange > 0 ? outOfRange/total + inRange/total > 0.95 : false) || (empty ? empty/total > 0.8 : false) : false`.
The source evaluates the ratio tests in IEEE doubles, which is observable
(for example `18/20 + 1/20 > 0.95` holds in doubles though `19/20` is not
greater than `0.95` exactly), so each division result, the sum, and the
literals `0.95` and `0.8` are passed through `roundToDouble`; comparison of
two doubles is exact comparison of the rounded values. -/
def DateCounter.isOver (w : Window) (s : DateCounter) : Bool :=
  if 0 < s.calls ∧ 0 < s.total then
    (if willCheckRange w ∧ 0 < s.inRange then
        decide (roundToDouble (roundToDouble ((s.outOfRange : ℚ) / (s.total : ℚ))
              + roundToDouble ((s.inRange : ℚ) / (s.total : ℚ)))
            > roundToDouble (95 / 100))
      else false)
    ||
    (if 0 < s.empty then
        decide (roundToDouble ((s.empty : ℚ) / (s.total : ℚ)) > roundToDouble (8 / 10))
      else false)
  else false

/-- Written from the claim wording (refutation target for C1): true exactly
when either both bounds are set and `(outOfRange + inRange) / total > 0.95`,
or `empty / total > 0.8`; `total == 0` always yields false. -/
def isOverClaimed (w : Window) (s : DateCounter) : Bool :=
  if s.total = 0 then false
  else
    (willCheckRange w && decide (((s.outOfRange : ℚ) + (s.inRange : ℚ)) / (s.total : ℚ) > 95 / 100))
    || decide ((s.empty : ℚ) / (s.total : ℚ) > 8 / 10)

/-- A valid window with both bounds set, for the C1 counterexample. -/
def c1Window : Window := ⟨some 0, some 1000⟩

/-- Counter state reached from the initial state by one scroll step that
found one item (`add 1`) whose timestamp 2000 lies outside the window. -/
def c1State : DateCounter := ((DateCounter.init.add 1).time c1Window 2000).1

/-! ## Date conversion (`convertDate`, functions.ts lines 126-157) -/

/-- The possible runtime arguments of `convertDate`
(`string | number | Date | undefined | null`). -/
inductive JsDateInput where
  | undef
  | nullv
  | num (n : Int)
  | str (s : String)
  | date (ms : Int)
deriving DecidableEq

/-- JavaScript truthiness test `!value` on a `convertDate` argument:
`undefined`, `null`, `0` and the empty string are falsy; a `Date` object is
always truthy. -/
def jsFalsy : JsDateInput → Bool
  | .undef => true
  | .nullv => true
  | .num n => n == 0
  | .str s => s == ""
  | .date _ => false

/-- Host-environment oracles `convertDate` depends on: `new Date(string)`
parsing, unary-plus string-to-number coercion (`+value`), and
`Date.prototype.toISOString` formatting of a valid time value. `none`
models `NaN` / an invalid date. -/
structure JsDateEnv where
  parseDate : String → Option Int
  coerceNum : String → Option Int
  isoFormat : Int → String

/-- Embeds `new Date(n)` for a numeric argument: time values beyond
8.64e15 in magnitude give an invalid date. -/
def mkDateFromNum (n : Int) : Option Int :=
  if n.natAbs ≤ 8640000000000000 then some n else none

/-- Length of the decimal string of an integer, including a minus sign,
as in the template literal of the source. -/
def digitLength (n : Int) : Nat := (toString n).length

/-- Embeds the `tryConvert` computation of `convertDate` (functions.ts
143-154) for the non-falsy, non-`Date` arguments: the first conversion is
retried with a seconds-to-milliseconds adjustment when it produced an
invalid date or a time value shorter than 13 decimal digits. -/
def convertDateTry (env : JsDateEnv) : JsDateInput → Option Int
  | .num n =>
      let try0 := mkDateFromNum n
      let needRetry :=
        match try0 with
        | none => true
        | some tv => digitLength tv < 13
      if needRetry then mkDateFromNum (if digitLength n ≥ 13 then n else n * 1000)
      else try0
  | .str s =>
      let try0 := env.parseDate s
      let needRetry :=
        match try0 with
        | none => true
        | some tv => digitLength tv < 13
      if needRetry then
        match env.coerceNum s with
        | none => none
        | some k => mkDateFromNum (if s.length ≥ 13 then k else k * 1000)
      else try0
  | _ => none

/-- Result of `convertDate` in number mode: a finite millisecond value,
`Infinity`, or `NaN`. -/
inductive JsNum where
  | nan
  | inf
  | fin (n : Int)
deriving DecidableEq

/-- Embeds `convertDate(value)` in number mode (functions.ts 134-157). -/
def convertDateNum (env : JsDateEnv) (value : JsDateInput) : JsNum :=
  if jsFalsy value then JsNum.inf
  else
    match value with
    | .date ms => JsNum.fin ms
    | v =>
        match convertDateTry env v with
        | some tv => JsNum.fin tv
        | none => JsNum.nan

/-- Embeds `convertDate(value, true)` in ISO-string mode; `none` models the
`RangeError` that `toISOString` raises on an invalid date. -/
def convertDateIso (env : JsDateEnv) (value : JsDateInput) : Option String :=
  if jsFalsy value then some "2100-01-01T00:00:00.000Z"
  else
    match value with
    | .date ms => some (env.isoFormat ms)
    | v =>
        match convertDateTry env v with
        | some tv => some (env.isoFormat tv)
        | none => none

/-- A trivial oracle environment used by the C10 witness. -/
def c10Env : JsDateEnv := ⟨fun _ => none, fun _ => none, fun _ => ""⟩

/-! ## Per-task time budget (`handlePageTimeoutSecs`, orchestrator main
file lines 104-114) -/

/-- Embeds `Math.round`: round half toward positive infinity. -/
def jsRound (q : ℚ) : Int := ⌊q + 1 / 2⌋

/-- Embeds the `handlePageTimeoutSecs` computation: the raw budget is
`Math.round(60 * (((maxPostComments + maxPosts) || 10) * 0.08)) + 600`
seconds; if `raw * 60000 >= 0x7FFFFFFF` the budget is clamped to
`Math.floor(0x7FFFFFFF / 60000)` and a warning is logged (returned here as
the boolean component). -/
def handlePageTimeoutSecs (maxPostComments maxPosts : ℚ) : Int × Bool :=
  let s : ℚ := maxPostComments + maxPosts
  let s1 : ℚ := if s = 0 then 10 else s
  let t : Int := jsRound (60 * (s1 * (8 / 100))) + 600
  if t * 60000 ≥ 0x7FFFFFFF then ((0x7FFFFFFF : Int) / 60000, true) else (t, false)

/-! ## URL model

The source manipulates WHATWG `URL` objects (protocol, hostname, pathname,
searchParams) and also URL strings (`split`, `toString`, `new URL`). Both
views are embedded: `JsUrl` is the object view restricted to the components
the code touches, `serializeUrl`/`parseUrl` model `toString`/`new URL` for
the canonical `scheme://host/path?query` shape these URLs have. -/

/-- Splits a character list at every occurrence of `sep`, keeping empty
pieces, as `String.prototype.split` does. -/
def splitCharAux (sep : Char) : List Char → List Char → List (List Char)
  | [], acc => [acc.reverse]
  | c :: rest, acc =>
      if c = sep then acc.reverse :: splitCharAux sep rest []
      else splitCharAux sep rest (c :: acc)

/-- JavaScript `s.split(sep)` on character lists. -/
def splitChar (sep : Char) (l : List Char) : List (List Char) :=
  splitCharAux sep l []

/-- Substring containment test on character lists. -/
def containsSeq (pat : List Char) : List Char → Bool
  | [] => pat.isEmpty
  | c :: rest => pat.isPrefixOf (c :: rest) || containsSeq pat rest

/-- JavaScript `s.replace(pat, "")` with a non-empty string pattern:
removes the first occurrence only, anywhere in the string. -/
def replaceFirstSeq (pat : List Char) : List Char → List Char
  | [] => []
  | c :: rest =>
      if pat.isPrefixOf (c :: rest) then (c :: rest).drop pat.length
      else c :: replaceFirstSeq pat rest

/-- JavaScript `s.startsWith(pre)`. -/
def strStartsWith (s pre : String) : Bool := pre.data.isPrefixOf s.data

/-- JavaScript `s.replace(pat, "")` on strings. -/
def replaceFirstStr (pat s : String) : String :=
  String.mk (replaceFirstSeq pat.data s.data)

/-- Substring containment on strings. -/
def containsStr (pat s : String) : Bool := containsSeq pat.data s.data

/-- The `URL` object view: protocol (stored without the trailing colon),
hostname, pathname and searchParams as an ordered pair list. -/
structure JsUrl where
  scheme : String
  hostname : String
  pathname : String
  search : List (String × String)
deriving DecidableEq

/-- The mobile (content-optimized) host. `constants.ts` is not among the
sources; the value is modelled from the spec's mobile content host as used
throughout the code. Only its shape (a host with no slash, colon or
question mark) matters for the theorems. -/
def MOBILE_HOST : String := "m.facebook.com"

/-- The canonical desktop content host, modelled like `MOBILE_HOST`. -/
def DESKTOP_HOST : String := "www.facebook.com"

/-- Models one pass of `URLSearchParams.forEach` whose callback may call
`searchParams.delete(key)`: iteration is by live index, `delete` removes
every pair with that key, and the index still advances, so the entry right
after a deleted one is skipped. The fuel is the initial length: the index
grows by one per iteration while the list never grows, so the loop performs
at most one iteration per initial entry. -/
def sweepParams (shouldDelete : String → Bool) :
    Nat → List (String × String) → Nat → List (String × String)
  | 0, l, _ => l
  | fuel + 1, l, i =>
      if h : i < l.length then
        let k := (l.get ⟨i, h⟩).1
        if shouldDelete k then
          sweepParams shouldDelete fuel (l.filter (fun p => p.1 != k)) (i + 1)
        else
          sweepParams shouldDelete fuel l (i + 1)
      else l

/-- The full `forEach`-with-`delete` pass over a searchParams list. -/
def forEachDelete (shouldDelete : String → Bool) (l : List (String × String)) :
    List (String × String) :=
  sweepParams shouldDelete l.length l 0

/-- Models the `URL.pathname` setter for a special scheme: the serialized
path always begins with a slash. -/
def setPathname (s : String) : String :=
  if s.data.head? = some '/' then s else String.mk ('/' :: s.data)

/-- Embeds `normalizeOutputPageUrl` (functions.ts 598-610): force `https`,
force the desktop host, run the delete-all `forEach` over the query
parameters, and remove the first occurrence of the string slash-pg-slash
from the path. -/
def normalizeOutputPageUrl (u : JsUrl) : JsUrl :=
  { scheme := "https"
    hostname := DESKTOP_HOST
    search := forEachDelete (fun _ => true) u.search
    pathname := setPathname (replaceFirstStr "/pg/" u.pathname) }

/-- Concrete input for the C3 evaluation: a page URL with three query
parameters. -/
def c3Input : JsUrl :=
  ⟨"https", "www.facebook.com", "/somepage", [("a", "1"), ("b", "2"), ("c", "3")]⟩

/-- Concrete input for the C2 counterexample: a page URL with two query
parameters. -/
def c2Input : JsUrl :=
  ⟨"https", "www.facebook.com", "/somepage", [("a", "1"), ("b", "2")]⟩

/-! ## URL parsing and classification (`getUrlLabel`, functions.ts
lines 640-678) -/

/-- The label set of `constants.ts` (`LABELS`), reconstructed from its
uses: `PAGE`, `POST`, `PHOTO`, `LISTING`, `SEARCH`. -/
inductive FbLabel where
  | page
  | post
  | photo
  | listing
  | search
deriving DecidableEq

/-- The payload of an `InfoError`: its message and `namespace` tag. -/
structure InfoErrorM where
  message : String
  namespaceTag : String
deriving DecidableEq

/-- A failure of `getUrlLabel` on a raw string: either its own `InfoError`
or the `TypeError` that `new URL` raises on an unparseable string. -/
inductive UrlFailure where
  | info (e : InfoErrorM)
  | typeError
deriving DecidableEq

/-- Membership in the character class of the page pattern,
`[a-z0-9.\-%]` under the case-insensitive flag. -/
def isPageClassChar (c : Char) : Bool :=
  decide ('a' ≤ c ∧ c ≤ 'z') || decide ('A' ≤ c ∧ c ≤ 'Z')
    || decide ('0' ≤ c ∧ c ≤ '9') || c == '.' || c == '-' || c == '%'

/-- Whether the regex tail after a matched slash can match: the groups
`(pg)?` and the optional slash are subsumed because `p` and `g` are
themselves class characters and the trailing optional slash never blocks a
match, so the tail matches exactly when the next character is a class
character, or is a slash followed by a class character. -/
def pageTailMatch : List Char → Bool
  | [] => false
  | [c] => isPageClassChar c
  | c :: c2 :: _ => isPageClassChar c || (c == '/' && isPageClassChar c2)

/-- Unanchored test of the page pattern (a slash, an optional `pg`, an
optional slash, then one or more class characters). -/
def pageRegexTest : List Char → Bool
  | [] => false
  | c :: rest => (if c = '/' then pageTailMatch rest else false) || pageRegexTest rest

/-- Unanchored test for a literal pattern followed immediately by a decimal
digit, modelling the `/\/photos\/a\.\d+/` and `/\/posts\/\d+/` tests. -/
def digitAfter (pat : List Char) : List Char → Bool
  | [] => false
  | c :: rest =>
      (pat.isPrefixOf (c :: rest) &&
        (match (c :: rest).drop pat.length with
         | d :: _ => d.isDigit
         | [] => false))
      || digitAfter pat rest

/-- Embeds the body of `getUrlLabel` after `new URL` (functions.ts
653-677): hostname must contain the target domain, then the first matching
shape of `/biz/` prefix, photo path, post path or page path wins; otherwise
an `InfoError` is thrown. -/
def getUrlLabelCore (u : JsUrl) : Except InfoErrorM FbLabel :=
  if containsStr "facebook.com" u.hostname then
    if strStartsWith u.pathname "/biz/" then Except.ok FbLabel.listing
    else if digitAfter "/photos/a.".data u.pathname.data then Except.ok FbLabel.photo
    else if digitAfter "/posts/".data u.pathname.data then Except.ok FbLabel.post
    else if pageRegexTest u.pathname.data then Except.ok FbLabel.page
    else Except.error ⟨"Invalid Facebook url provided or could not be determined", "getUrlLabel"⟩
  else Except.error ⟨"Invalid Facebook url provided or could not be determined", "getUrlLabel"⟩

/-- Parses one `key=value` piece of a query string. -/
def parseQueryPart (part : List Char) : String × String :=
  let k := part.takeWhile (fun c => c != '=')
  match part.drop k.length with
  | '=' :: v => (String.mk k, String.mk v)
  | _ => (String.mk k, "")

/-- Parses a query string into searchParams pairs; empty pieces between
ampersands are skipped, as `URLSearchParams` does. -/
def parseQuery (q : List Char) : List (String × String) :=
  ((splitChar '&' q).filter (fun part => !part.isEmpty)).map parseQueryPart

/-- Models `new URL` on the character list of the input string, for the
canonical absolute shape `scheme://host/path?query` that every URL handled
by this code has (no userinfo, port or fragment): `none` models the
`TypeError` thrown on a string with no scheme or no host. An empty path
serializes to a single slash, as in the URL standard. -/
def parseUrlChars (cs : List Char) : Option JsUrl :=
  let scheme := cs.takeWhile (fun c => c != ':')
  if scheme.isEmpty then none
  else
    match cs.drop scheme.length with
    | ':' :: '/' :: '/' :: rest2 =>
        let host := rest2.takeWhile (fun c => c != '/' && c != '?')
        if host.isEmpty then none
        else
          let rest3 := rest2.drop host.length
          let path := rest3.takeWhile (fun c => c != '?')
          let pathStr := if path.isEmpty then "/" else String.mk path
          let query :=
            match rest3.drop path.length with
            | '?' :: q => parseQuery q
            | _ => []
          some ⟨String.mk scheme, String.mk host, pathStr, query⟩
    | _ => none

/-- Models `new URL(s)`. -/
def parseUrl (s : String) : Option JsUrl := parseUrlChars s.data

/-- Embeds `getUrlLabel` on a raw string (functions.ts 645-678): the empty
string raises an `InfoError` before parsing; an unparseable string raises
the `TypeError` of `new URL`; otherwise the classifier body runs. -/
def getUrlLabelStr (s : String) : Except UrlFailure FbLabel :=
  if s = "" then Except.error (UrlFailure.info ⟨"Invalid url provided", "getUrlLabel"⟩)
  else
    match parseUrl s with
    | none => Except.error UrlFailure.typeError
    | some u =>
        match getUrlLabelCore u with
        | Except.ok l => Except.ok l
        | Except.error e => Except.error (UrlFailure.info e)

/-! ## Fan-out planning (`normalizeToMobilePageUrl`, functions.ts 568-593,
and `generateSubpagesFromUrl`, functions.ts 683-709) -/

/-- Serialization of searchParams, prefixed with the question mark by
`URL.toString` exactly when non-empty. -/
def serializeQueryChars : List (String × String) → List Char
  | [] => []
  | ps => '?' :: List.intercalate ['&'] (ps.map (fun p => p.1.data ++ '=' :: p.2.data))

/-- Embeds `URL.toString` for our URL objects. -/
def serializeUrl (u : JsUrl) : String :=
  String.mk (u.scheme.data ++ ':' :: '/' :: '/' :: (u.hostname.data
    ++ u.pathname.data ++ serializeQueryChars u.search))

/-- The `filterParams` argument of `normalizeToMobilePageUrl`: a boolean or
an allow-list array. -/
inductive FilterParams where
  | flag (b : Bool)
  | allow (keys : List String)

/-- The delete decision of the `forEach` callback in
`normalizeToMobilePageUrl`: an allow-listed key is kept; otherwise the key
is deleted exactly when `filterParams` is truthy (an array, even an empty
one, is truthy in JavaScript). -/
def filterShouldDelete : FilterParams → String → Bool
  | .allow keys, k => !keys.contains k
  | .flag b, _ => b

/-- Embeds `normalizeToMobilePageUrl` (functions.ts 568-593): unless the
path already starts with `/pg`, rebuild it as `/pg/` followed by the
non-empty path segments joined by slashes; force the mobile host; and run
the `forEach`-delete pass over the query parameters. -/
def normalizeToMobilePageUrl (u : JsUrl) (filterParams : FilterParams) : JsUrl :=
  { scheme := u.scheme
    hostname := MOBILE_HOST
    pathname :=
      if strStartsWith u.pathname "/pg" then u.pathname
      else String.mk ('/' :: 'p' :: 'g' :: '/' ::
        List.intercalate ['/'] ((splitChar '/' u.pathname.data).filter (fun seg => !seg.isEmpty)))
    search := forEachDelete (filterShouldDelete filterParams) u.search }

/-- JavaScript `s.split('/', 5).join('/')`: `split` with a limit keeps at
most the first five pieces and discards the rest. -/
def splitJoin5 (s : String) : String :=
  String.mk (List.intercalate ['/'] ((splitChar '/' s.data).take 5))

/-- The section names of `FbSection` (definitions.ts is not among the
sources; the constructors are reconstructed from the section strings the
code uses). -/
inductive FbSection where
  | home
  | posts
  | about
  | reviews
  | services
deriving DecidableEq

/-- The string of a section name, as interpolated into the sub-page URL. -/
def FbSection.toStr : FbSection → String
  | .home => "home"
  | .posts => "posts"
  | .about => "about"
  | .reviews => "reviews"
  | .services => "services"

/-- One planned sub-task of `generateSubpagesFromUrl` (the source field
named after the section is called `sectionName` here because `section` is a
reserved word in Lean). -/
structure SubpageTask where
  url : String
  sectionName : FbSection
  useMobile : Bool
deriving DecidableEq

/-- Embeds `generateSubpagesFromUrl` (functions.ts 683-709): the base URL
is the mobile normalization of the input truncated to its first five
slash-separated pieces; the result is one `home` entry for the base
followed by one entry per requested section whose URL is the base URL with
the section name appended to the path, every entry flagged `useMobile`.
`none` models the `TypeError` raised if `new URL(base)` fails inside the
per-section map. -/
def generateSubpagesFromUrl (u : JsUrl)
    (pages : List FbSection := [FbSection.posts, FbSection.about, FbSection.reviews, FbSection.services]) :
    Option (List SubpageTask) :=
  let base := splitJoin5 (serializeUrl (normalizeToMobilePageUrl u (FilterParams.flag true)))
  (pages.mapM (fun (sub : FbSection) =>
      match parseUrl base with
      | none => none
      | some bu =>
          some ({ url := serializeUrl { bu with
                    pathname := String.mk (bu.pathname.data ++ '/' :: sub.toStr.data),
                    hostname := MOBILE_HOST },
                  sectionName := sub,
                  useMobile := true } : SubpageTask))).map
    (fun subs => { url := base, sectionName := FbSection.home, useMobile := true } :: subs)

/-! ## Scroll-termination change detection (`scrollUntil`, functions.ts
lines 755-882) -/

/-- The mutable scroll-loop state: the two per-signal value sets (as
insertion-ordered duplicate-free lists, mirroring `Set`) and the single
`lastCount` variable shared by both `isChanging` calls. -/
structure ScrollHistState where
  scrolls : List Int
  heights : List Int
  lastCount : Nat
deriving DecidableEq

/-- JavaScript `Set.add`: append if not already present. -/
def setAdd (l : List Int) (n : Int) : List Int :=
  if l.contains n then l else l ++ [n]

/-- Embeds one `isChanging(histogram, num)` call (functions.ts 762-774):
returns the changed flag and the updated `lastCount`. The null and
undefined guard of the source is modelled by the `Option` argument. -/
def isChangingStep (histogram : List Int) (lastCount : Nat) (num : Option Int) :
    Bool × Nat :=
  match num with
  | none => (false, lastCount)
  | some n =>
      if histogram.length ≤ lastCount then (false, lastCount)
      else (histogram.all (fun val => val != n), histogram.length)

/-- Embeds the sampling part of one iteration of the `scrollUntil` loop
(functions.ts 841-856): check the scroll signal first, add the sampled
scroll offset if truthy, then check the height signal with the `lastCount`
left by the scroll check, and add the sampled height if truthy. Returns the
new state, `scrollChanged` and `bodyChanged`. -/
def scrollStep (s : ScrollHistState) (lastScroll bodyHeight : Int) :
    ScrollHistState × Bool × Bool :=
  let r1 := isChangingStep s.scrolls s.lastCount (some lastScroll)
  let scrolls1 := if lastScroll != 0 then setAdd s.scrolls lastScroll else s.scrolls
  let r2 := isChangingStep s.heights r1.2 (some bodyHeight)
  let heights1 := if bodyHeight != 0 then setAdd s.heights bodyHeight else s.heights
  (⟨scrolls1, heights1, r2.2⟩, r1.1, r2.1)

/-- Scroll-loop state with a high-water mark per signal, written from the
claim wording (refutation target for C5). -/
structure ScrollHistStatePS where
  scrolls : List Int
  heights : List Int
  lastScrollCount : Nat
  lastHeightCount : Nat
deriving DecidableEq

/-- Written from the claim wording (refutation target for C5): the same
change detection but each signal keeps its own high-water mark. -/
def scrollStepPerSignal (s : ScrollHistStatePS) (lastScroll bodyHeight : Int) :
    ScrollHistStatePS × Bool × Bool :=
  let r1 := isChangingStep s.scrolls s.lastScrollCount (some lastScroll)
  let scrolls1 := if lastScroll != 0 then setAdd s.scrolls lastScroll else s.scrolls
  let r2 := isChangingStep s.heights s.lastHeightCount (some bodyHeight)
  let heights1 := if bodyHeight != 0 then setAdd s.heights bodyHeight else s.heights
  (⟨scrolls1, heights1, r1.2, r2.2⟩, r1.1, r2.1)

/-! ## Theorems -/

/-- Helper: reduction of `minMaxDates` on two set bounds. -/
theorem minMaxDates_some_some (a b : Int) :
    minMaxDates (some a) (some b) =
      if b - a < 0 then Except.error "Minimum date needs to be less than max date"
      else Except.ok ⟨some a, some b⟩ := rfl

/-- Helper: a successfully constructed window compares inclusively against
both bounds, an unset bound always matching. -/
theorem compare_ok_spec (mn mx : Option Int) (w : Window)
    (h : minMaxDates mn mx = Except.ok w) (t : Int) :
    w.compare t = compareSpecInclusive mn mx t := by
  cases mn with
  | none =>
      cases mx with
      | none =>
          simp only [minMaxDates, Except.ok.injEq] at h
          subst h
          rfl
      | some maxD =>
          simp only [minMaxDates, Except.ok.injEq] at h
          subst h
          simp only [Window.compare, compareSpecInclusive, Bool.true_and]
          exact decide_eq_decide.mpr (by omega)
  | some minD =>
      cases mx with
      | none =>
          simp only [minMaxDates, Except.ok.injEq] at h
          subst h
          simp only [Window.compare, compareSpecInclusive, Bool.and_true]
          exact decide_eq_decide.mpr (by omega)
      | some maxD =>
          rw [minMaxDates_some_some] at h
          split at h
          · exact absurd h (by simp)
          · simp only [Except.ok.injEq] at h
            subst h
            simp only [Window.compare, compareSpecInclusive]
            congr 1
            · exact decide_eq_decide.mpr (by omega)
            · exact decide_eq_decide.mpr (by omega)

/-- C4: a window built by `minMaxDates` compares inclusively on both bounds;
an unset bound always matches, so the all-unset window accepts every
timestamp; and the window spanning from two days ago to one day ago accepts
a timestamp 36 hours ago and rejects one 3 hours ago. -/
theorem minMaxDates_compare_inclusive :
    (∀ (mn mx : Option Int) (w : Window), minMaxDates mn mx = Except.ok w →
        ∀ t : Int, w.compare t = compareSpecInclusive mn mx t)
    ∧ (∀ (w : Window) (t : Int), minMaxDates none none = Except.ok w →
        w.compare t = true)
    ∧ (∀ now : Int, ∃ w : Window,
        minMaxDates (some (now - 172800000)) (some (now - 86400000)) = Except.ok w
        ∧ w.compare (now - 129600000) = true
        ∧ w.compare (now - 10800000) = false) := by
  refine ⟨fun mn mx w h t => compare_ok_spec mn mx w h t, ?_, ?_⟩
  · intro w t h
    simp only [minMaxDates, Except.ok.injEq] at h
    subst h
    rfl
  · intro now
    refine ⟨⟨some (now - 172800000), some (now - 86400000)⟩, ?_, ?_, ?_⟩
    · have hc : ¬ ((now - 86400000) - (now - 172800000) < 0) := by omega
      rw [minMaxDates_some_some, if_neg hc]
    · simp only [Window.compare, Bool.and_eq_true, decide_eq_true_eq]
      omega
    · have hc : ¬ ((now - 86400000) - (now - 10800000) ≥ 0) := by omega
      simp only [Window.compare]
      rw [decide_eq_false hc]
      simp

/-- Witness for C4 at concrete inputs. -/
theorem minMaxDates_compare_inclusive_witness :
    (Window.mk (some 0) (some 10)).compare 5 = compareSpecInclusive (some 0) (some 10) 5
    ∧ (Window.mk none none).compare 3 = true
    ∧ ∃ w : Window,
        minMaxDates (some ((0 : Int) - 172800000)) (some ((0 : Int) - 86400000)) = Except.ok w
        ∧ w.compare ((0 : Int) - 129600000) = true
        ∧ w.compare ((0 : Int) - 10800000) = false :=
  ⟨minMaxDates_compare_inclusive.1 (some 0) (some 10) ⟨some 0, some 10⟩ rfl 5,
   minMaxDates_compare_inclusive.2.1 ⟨none, none⟩ 3 rfl,
   minMaxDates_compare_inclusive.2.2 0⟩

/-- C6: `minMaxDates` fails exactly when both bounds resolve and the maximum
is chronologically before the minimum; when construction succeeds, `compare`
is the total inclusive-bounds predicate (it is a pure boolean function and
can raise no error afterwards). -/
theorem minMaxDates_error_characterization :
    (∀ (mn mx : Option Int),
        (∃ e, minMaxDates mn mx = Except.error e) ↔
          (∃ minD maxD, mn = some minD ∧ mx = some maxD ∧ maxD < minD))
    ∧ (∀ (mn mx : Option Int) (w : Window), minMaxDates mn mx = Except.ok w →
        ∀ t : Int, w.compare t = compareSpecInclusive mn mx t) := by
  constructor
  · intro mn mx
    constructor
    · rintro ⟨e, he⟩
      cases mn with
      | none => simp [minMaxDates] at he
      | some minD =>
          cases mx with
          | none => simp [minMaxDates] at he
          | some maxD =>
              refine ⟨minD, maxD, rfl, rfl, ?_⟩
              rw [minMaxDates_some_some] at he
              split at he
              · omega
              · exact absurd he (by simp)
    · rintro ⟨minD, maxD, hmn, hmx, hlt⟩
      subst hmn; subst hmx
      refine ⟨"Minimum date needs to be less than max date", ?_⟩
      rw [minMaxDates_some_some, if_pos (by omega)]
  · exact fun mn mx w h t => compare_ok_spec mn mx w h t

/-- Witness for C6 at concrete inputs: an inverted pair of bounds fails, and
a successfully built window compares as the inclusive predicate. -/
theorem minMaxDates_error_characterization_witness :
    (∃ e, minMaxDates (some 5) (some 0) = Except.error e)
    ∧ (Window.mk (some 0) (some 5)).compare 2 = compareSpecInclusive (some 0) (some 5) 2 :=
  ⟨minMaxDates_error_characterization.1 (some 5) (some 0) |>.mpr ⟨5, 0, rfl, rfl, by omega⟩,
   minMaxDates_error_characterization.2 (some 0) (some 5) ⟨some 0, some 5⟩ rfl 2⟩

/-- C1 counterexample: after one step that found a single item lying outside
a both-bounds window, `outOfRange/total = 1 > 0.95` so the claimed rule says
the feed is exhausted, but `isOver()` returns false because the source also
requires `inRange > 0`. -/
theorem isOver_claim_counterexample :
    DateCounter.isOver c1Window c1State = false
    ∧ isOverClaimed c1Window c1State = true := by
  have hs : c1State = ⟨1, 0, 1, 0, 1, 1, 0, 0, 1⟩ := by decide
  refine ⟨?_, ?_⟩
  · rw [hs]
    simp [DateCounter.isOver]
  · rw [hs]
    norm_num [isOverClaimed, willCheckRange, c1Window]

/-- Helper: the integer-log characterization used to evaluate binary64
roundings: if `2 ^ e ≤ q < 2 ^ (e + 1)` then `Int.log 2 q = e`. -/
theorem log2_eval (q : ℚ) (e : ℤ) (hq : 0 < q)
    (h1 : 2 ^ e ≤ q) (h2 : q < 2 ^ (e + 1)) : Int.log 2 q = e := by
  have hlow : (2 : ℚ) ^ Int.log 2 q ≤ q := by
    have h := Int.zpow_log_le_self (b := 2) one_lt_two hq
    simpa using h
  have hhigh : q < (2 : ℚ) ^ (Int.log 2 q + 1) := by
    have h := Int.lt_zpow_succ_log_self (b := 2) one_lt_two q
    simpa using h
  have he1 : e < Int.log 2 q + 1 :=
    (zpow_lt_zpow_iff_right₀ (by norm_num : (1 : ℚ) < 2)).mp (lt_of_le_of_lt h1 hhigh)
  have he2 : Int.log 2 q < e + 1 :=
    (zpow_lt_zpow_iff_right₀ (by norm_num : (1 : ℚ) < 2)).mp (lt_of_le_of_lt hlow h2)
  omega

/-- Helper: round-half-even evaluation when the fraction is below one
half. -/
theorem roundHalfEven_eval_low (x : ℚ) (f : ℤ) (hf : ⌊x⌋ = f)
    (h : x - (f : ℚ) < 1 / 2) : roundHalfEven x = f := by
  unfold roundHalfEven
  rw [hf, if_pos h]

/-- Helper: round-half-even evaluation when the fraction is above one
half. -/
theorem roundHalfEven_eval_high (x : ℚ) (f : ℤ) (hf : ⌊x⌋ = f)
    (h : 1 / 2 < x - (f : ℚ)) : roundHalfEven x = f + 1 := by
  unfold roundHalfEven
  rw [hf, if_neg (by linarith), if_pos h]

/-- Helper: round-half-even evaluation at a tie under an odd floor. -/
theorem roundHalfEven_eval_tie_odd (x : ℚ) (f : ℤ) (hf : ⌊x⌋ = f)
    (h : x - (f : ℚ) = 1 / 2) (hodd : f % 2 = 1) : roundHalfEven x = f + 1 := by
  unfold roundHalfEven
  rw [hf, if_neg (by rw [h]; norm_num), if_neg (by rw [h]; norm_num), if_neg (by omega)]

/-- Helper: binary64 rounding evaluation from the exponent sandwich and the
mantissa rounding. -/
theorem roundToDouble_eval (q : ℚ) (e m : ℤ) (hq : 0 < q)
    (h1 : 2 ^ e ≤ q) (h2 : q < 2 ^ (e + 1))
    (hm : roundHalfEven (q * 2 ^ ((52 : ℤ) - e)) = m) :
    roundToDouble q = (m : ℚ) * 2 ^ (e - 52) := by
  unfold roundToDouble
  rw [if_pos hq, log2_eval q e hq h1 h2, hm]

/-- C1 as amended: `isOver()` is true exactly when at least one call was
recorded, `total > 0`, and either both bounds are set with `inRange > 0`
and the double-precision value of `outOfRange/total + inRange/total`
exceeds the double `0.95`, or `empty > 0` and the double value of
`empty/total` exceeds the double `0.8`; `total == 0` always gives false.
In particular, with both bounds set, the claim's samples
`total=100, outOfRange=80, inRange=16` (in doubles `0.8 + 0.16` exceeds
`0.95`) and `total=100, inRange=50, outOfRange=30` (in doubles
`0.3 + 0.5 = 0.8`) yield true and false respectively, and the double
rounding is itself observable: `total=20, outOfRange=18, inRange=1` yields
true although the exact ratio `19/20` does not exceed `0.95`. -/
theorem isOver_characterization :
    (∀ (w : Window) (s : DateCounter),
      DateCounter.isOver w s = true ↔
        (0 < s.calls ∧ 0 < s.total ∧
          ((willCheckRange w = true ∧ 0 < s.inRange ∧
              roundToDouble (roundToDouble ((s.outOfRange : ℚ) / (s.total : ℚ))
                  + roundToDouble ((s.inRange : ℚ) / (s.total : ℚ)))
                > roundToDouble (95 / 100))
            ∨ (0 < s.empty ∧
                roundToDouble ((s.empty : ℚ) / (s.total : ℚ)) > roundToDouble (8 / 10)))))
    ∧ (∀ w : Window, willCheckRange w = true →
        DateCounter.isOver w ⟨100, 0, 0, 0, 0, 80, 0, 16, 1⟩ = true
        ∧ DateCounter.isOver w ⟨100, 0, 0, 0, 0, 30, 0, 50, 1⟩ = false
        ∧ DateCounter.isOver w ⟨20, 0, 0, 0, 0, 18, 0, 1, 1⟩ = true) := by
  have main : ∀ (w : Window) (s : DateCounter),
      DateCounter.isOver w s = true ↔
        (0 < s.calls ∧ 0 < s.total ∧
          ((willCheckRange w = true ∧ 0 < s.inRange ∧
              roundToDouble (roundToDouble ((s.outOfRange : ℚ) / (s.total : ℚ))
                  + roundToDouble ((s.inRange : ℚ) / (s.total : ℚ)))
                > roundToDouble (95 / 100))
            ∨ (0 < s.empty ∧
                roundToDouble ((s.empty : ℚ) / (s.total : ℚ)) > roundToDouble (8 / 10)))) := by
    intro w s
    unfold DateCounter.isOver
    by_cases h : 0 < s.calls ∧ 0 < s.total
    · rw [if_pos h]
      by_cases h1 : willCheckRange w ∧ 0 < s.inRange
      · rw [if_pos h1]
        by_cases h2 : 0 < s.empty
        · rw [if_pos h2]
          simp only [Bool.or_eq_true, decide_eq_true_eq]
          constructor
          · rintro (hr | he)
            · exact ⟨h.1, h.2, Or.inl ⟨h1.1, h1.2, hr⟩⟩
            · exact ⟨h.1, h.2, Or.inr ⟨h2, he⟩⟩
          · rintro ⟨-, -, (⟨-, -, hr⟩ | ⟨-, he⟩)⟩
            · exact Or.inl hr
            · exact Or.inr he
        · rw [if_neg h2]
          simp only [Bool.or_false, decide_eq_true_eq]
          constructor
          · intro hr
            exact ⟨h.1, h.2, Or.inl ⟨h1.1, h1.2, hr⟩⟩
          · rintro ⟨-, -, (⟨-, -, hr⟩ | ⟨he, -⟩)⟩
            · exact hr
            · exact absurd he h2
      · rw [if_neg h1]
        by_cases h2 : 0 < s.empty
        · rw [if_pos h2]
          simp only [Bool.false_or, decide_eq_true_eq]
          constructor
          · intro he
            exact ⟨h.1, h.2, Or.inr ⟨h2, he⟩⟩
          · rintro ⟨-, -, (⟨hw, hi, -⟩ | ⟨-, he⟩)⟩
            · exact absurd ⟨hw, hi⟩ h1
            · exact he
        · rw [if_neg h2]
          simp only [Bool.false_or, Bool.false_eq_true, false_iff]
          rintro ⟨-, -, (⟨hw, hi, -⟩ | ⟨he, -⟩)⟩
          · exact absurd ⟨hw, hi⟩ h1
          · exact absurd he h2
    · rw [if_neg h]
      simp only [Bool.false_eq_true, false_iff]
      rintro ⟨hc, ht, -⟩
      exact h ⟨hc, ht⟩
  refine ⟨main, ?_⟩
  intro w hw
  have e80 : roundToDouble ((80 : ℚ) / 100) = 7205759403792794 / 2 ^ 53 := by
    rw [roundToDouble_eval ((80 : ℚ) / 100) (-1) 7205759403792794 (by norm_num) (by norm_num)
      (by norm_num)
      (roundHalfEven_eval_high _ 7205759403792793 (by norm_num [Int.floor_eq_iff]) (by norm_num))]
    norm_num
  have e16 : roundToDouble ((16 : ℚ) / 100) = 5764607523034235 / 2 ^ 55 := by
    rw [roundToDouble_eval ((16 : ℚ) / 100) (-3) 5764607523034235 (by norm_num) (by norm_num)
      (by norm_num)
      (roundHalfEven_eval_high _ 5764607523034234 (by norm_num [Int.floor_eq_iff]) (by norm_num))]
    norm_num
  have e95 : roundToDouble ((95 : ℚ) / 100) = 8556839292003942 / 2 ^ 53 := by
    rw [roundToDouble_eval ((95 : ℚ) / 100) (-1) 8556839292003942 (by norm_num) (by norm_num)
      (by norm_num)
      (roundHalfEven_eval_low _ 8556839292003942 (by norm_num [Int.floor_eq_iff]) (by norm_num))]
    norm_num
  have eS1 : roundToDouble ((7205759403792794 : ℚ) / 2 ^ 53 + 5764607523034235 / 2 ^ 55)
      = 8646911284551353 / 2 ^ 53 := by
    rw [show ((7205759403792794 : ℚ) / 2 ^ 53 + 5764607523034235 / 2 ^ 55)
        = 34587645138205411 / 2 ^ 55 from by norm_num]
    rw [roundToDouble_eval ((34587645138205411 : ℚ) / 2 ^ 55) (-1) 8646911284551353
      (by norm_num) (by norm_num) (by norm_num)
      (roundHalfEven_eval_high _ 8646911284551352 (by norm_num [Int.floor_eq_iff]) (by norm_num))]
    norm_num
  have e30 : roundToDouble ((30 : ℚ) / 100) = 5404319552844595 / 2 ^ 54 := by
    rw [roundToDouble_eval ((30 : ℚ) / 100) (-2) 5404319552844595 (by norm_num) (by norm_num)
      (by norm_num)
      (roundHalfEven_eval_low _ 5404319552844595 (by norm_num [Int.floor_eq_iff]) (by norm_num))]
    norm_num
  have e50 : roundToDouble ((50 : ℚ) / 100) = 4503599627370496 / 2 ^ 53 := by
    rw [roundToDouble_eval ((50 : ℚ) / 100) (-1) 4503599627370496 (by norm_num) (by norm_num)
      (by norm_num)
      (roundHalfEven_eval_low _ 4503599627370496 (by norm_num [Int.floor_eq_iff]) (by norm_num))]
    norm_num
  have eS2 : roundToDouble ((5404319552844595 : ℚ) / 2 ^ 54 + 4503599627370496 / 2 ^ 53)
      = 7205759403792794 / 2 ^ 53 := by
    rw [show ((5404319552844595 : ℚ) / 2 ^ 54 + 4503599627370496 / 2 ^ 53)
        = 14411518807585587 / 2 ^ 54 from by norm_num]
    rw [roundToDouble_eval ((14411518807585587 : ℚ) / 2 ^ 54) (-1) 7205759403792794
      (by norm_num) (by norm_num) (by norm_num)
      (roundHalfEven_eval_tie_odd _ 7205759403792793 (by norm_num [Int.floor_eq_iff])
        (by norm_num) (by norm_num))]
    norm_num
  have e18 : roundToDouble ((18 : ℚ) / 20) = 8106479329266893 / 2 ^ 53 := by
    rw [roundToDouble_eval ((18 : ℚ) / 20) (-1) 8106479329266893 (by norm_num) (by norm_num)
      (by norm_num)
      (roundHalfEven_eval_high _ 8106479329266892 (by norm_num [Int.floor_eq_iff]) (by norm_num))]
    norm_num
  have e1 : roundToDouble ((1 : ℚ) / 20) = 7205759403792794 / 2 ^ 57 := by
    rw [roundToDouble_eval ((1 : ℚ) / 20) (-5) 7205759403792794 (by norm_num) (by norm_num)
      (by norm_num)
      (roundHalfEven_eval_high _ 7205759403792793 (by norm_num [Int.floor_eq_iff]) (by norm_num))]
    norm_num
  have eS3 : roundToDouble ((8106479329266893 : ℚ) / 2 ^ 53 + 7205759403792794 / 2 ^ 57)
      = 8556839292003943 / 2 ^ 53 := by
    rw [show ((8106479329266893 : ℚ) / 2 ^ 53 + 7205759403792794 / 2 ^ 57)
        = 136909428672063082 / 2 ^ 57 from by norm_num]
    rw [roundToDouble_eval ((136909428672063082 : ℚ) / 2 ^ 57) (-1) 8556839292003943
      (by norm_num) (by norm_num) (by norm_num)
      (roundHalfEven_eval_high _ 8556839292003942 (by norm_num [Int.floor_eq_iff]) (by norm_num))]
    norm_num
  refine ⟨?_, ?_, ?_⟩
  · apply (main w ⟨100, 0, 0, 0, 0, 80, 0, 16, 1⟩).mpr
    refine ⟨by decide, by decide, Or.inl ⟨hw, by decide, ?_⟩⟩
    show roundToDouble (roundToDouble ((80 : ℚ) / 100) + roundToDouble ((16 : ℚ) / 100))
        > roundToDouble (95 / 100)
    rw [e80, e16, eS1, e95]
    norm_num
  · rw [← Bool.not_eq_true]
    intro hc
    rcases (main w ⟨100, 0, 0, 0, 0, 30, 0, 50, 1⟩).mp hc with ⟨-, -, ⟨-, -, hgt⟩ | ⟨hemp, -⟩⟩
    · rw [show roundToDouble (roundToDouble
            (((⟨100, 0, 0, 0, 0, 30, 0, 50, 1⟩ : DateCounter).outOfRange : ℚ)
              / ((⟨100, 0, 0, 0, 0, 30, 0, 50, 1⟩ : DateCounter).total : ℚ))
          + roundToDouble (((⟨100, 0, 0, 0, 0, 30, 0, 50, 1⟩ : DateCounter).inRange : ℚ)
              / ((⟨100, 0, 0, 0, 0, 30, 0, 50, 1⟩ : DateCounter).total : ℚ)))
          = roundToDouble (roundToDouble ((30 : ℚ) / 100) + roundToDouble ((50 : ℚ) / 100))
          from rfl] at hgt
      rw [e30, e50, eS2, e95] at hgt
      norm_num at hgt
    · exact absurd hemp (by decide)
  · apply (main w ⟨20, 0, 0, 0, 0, 18, 0, 1, 1⟩).mpr
    refine ⟨by decide, by decide, Or.inl ⟨hw, by decide, ?_⟩⟩
    show roundToDouble (roundToDouble ((18 : ℚ) / 20) + roundToDouble ((1 : ℚ) / 20))
        > roundToDouble (95 / 100)
    rw [e18, e1, eS3, e95]
    norm_num

/-- Witness for C1's amended theorem at a concrete both-bounds window. -/
theorem isOver_characterization_witness :
    willCheckRange ⟨some 0, some 1000⟩ = true
    ∧ DateCounter.isOver ⟨some 0, some 1000⟩ ⟨100, 0, 0, 0, 0, 80, 0, 16, 1⟩ = true :=
  ⟨by decide, (isOver_characterization.2 ⟨some 0, some 1000⟩ (by decide)).1⟩

/-- C10: every falsy argument (undefined, null, 0, the empty string) makes
`convertDate` return `Infinity` in number mode and the fixed ISO string in
ISO-string mode, for every host environment. -/
theorem convertDate_falsy :
    ∀ (env : JsDateEnv) (v : JsDateInput), jsFalsy v = true →
      convertDateNum env v = JsNum.inf
      ∧ convertDateIso env v = some "2100-01-01T00:00:00.000Z" := by
  intro env v h
  constructor
  · simp [convertDateNum, h]
  · simp [convertDateIso, h]

/-- Witness for C10 at the concrete falsy input `0`. -/
theorem convertDate_falsy_witness :
    convertDateNum c10Env (JsDateInput.num 0) = JsNum.inf
    ∧ convertDateIso c10Env (JsDateInput.num 0) = some "2100-01-01T00:00:00.000Z" :=
  convertDate_falsy c10Env (JsDateInput.num 0) (by decide)

/-- C8: for non-negative configured volumes the per-task budget is at least
600 seconds; whenever the raw scaled value converted with the source's
minute factor reaches `0x7FFFFFFF`, the budget is clamped to
`floor(0x7FFFFFFF / 60000) = 35791` seconds and the warning fires;
otherwise the raw value is used and no warning fires. -/
theorem handlePageTimeoutSecs_spec :
    ∀ (c p : ℚ), 0 ≤ c + p →
      600 ≤ (handlePageTimeoutSecs c p).1
      ∧ ((jsRound (60 * ((if c + p = 0 then 10 else c + p) * (8 / 100))) + 600) * 60000 ≥ 0x7FFFFFFF →
          (handlePageTimeoutSecs c p).1 = 35791 ∧ (handlePageTimeoutSecs c p).2 = true)
      ∧ ((jsRound (60 * ((if c + p = 0 then 10 else c + p) * (8 / 100))) + 600) * 60000 < 0x7FFFFFFF →
          (handlePageTimeoutSecs c p).1
              = jsRound (60 * ((if c + p = 0 then 10 else c + p) * (8 / 100))) + 600
          ∧ (handlePageTimeoutSecs c p).2 = false) := by
  intro c p h
  have hq0 : (0 : ℚ) ≤ 60 * ((if c + p = 0 then 10 else c + p) * (8 / 100)) := by
    by_cases hs : c + p = 0
    · rw [if_pos hs]; norm_num
    · rw [if_neg hs]
      have : (0 : ℚ) < c + p := lt_of_le_of_ne h (fun he => hs he.symm)
      positivity
  have hr0 : 0 ≤ jsRound (60 * ((if c + p = 0 then 10 else c + p) * (8 / 100))) := by
    unfold jsRound
    apply Int.le_floor.mpr
    push_cast
    linarith
  have hdef : handlePageTimeoutSecs c p =
      (if (jsRound (60 * ((if c + p = 0 then 10 else c + p) * (8 / 100))) + 600) * 60000 ≥ 0x7FFFFFFF
       then ((0x7FFFFFFF : Int) / 60000, true)
       else (jsRound (60 * ((if c + p = 0 then 10 else c + p) * (8 / 100))) + 600, false)) := rfl
  by_cases hc :
      (jsRound (60 * ((if c + p = 0 then 10 else c + p) * (8 / 100))) + 600) * 60000 ≥ 0x7FFFFFFF
  · rw [hdef, if_pos hc]
    have h35791 : ((0x7FFFFFFF : Int) / 60000) = 35791 := by decide
    refine ⟨?_, fun _ => ⟨h35791, rfl⟩, fun hlt => absurd hc (by omega)⟩
    rw [h35791]; omega
  · rw [hdef, if_neg hc]
    exact ⟨by simpa using hr0, fun hge => absurd hge hc, fun _ => ⟨rfl, rfl⟩⟩

/-- Witness for C8: the defaults (15 comments, 3 posts) stay below the
clamp, and a huge volume hits the clamp. -/
theorem handlePageTimeoutSecs_spec_witness :
    (600 ≤ (handlePageTimeoutSecs 15 3).1
      ∧ ((handlePageTimeoutSecs 15 3).1 = 686 ∧ (handlePageTimeoutSecs 15 3).2 = false))
    ∧ ((handlePageTimeoutSecs 1000000000 0).1 = 35791
      ∧ (handlePageTimeoutSecs 1000000000 0).2 = true) := by
  have hx : jsRound (60 * ((if (15 : ℚ) + 3 = 0 then 10 else (15 : ℚ) + 3) * (8 / 100))) = 86 := by
    norm_num [jsRound, Int.floor_eq_iff]
  have hy : jsRound (60 * ((if (1000000000 : ℚ) + 0 = 0 then 10 else (1000000000 : ℚ) + 0) * (8 / 100)))
      = 4800000000 := by
    norm_num [jsRound, Int.floor_eq_iff]
  have h1 := handlePageTimeoutSecs_spec 15 3 (by norm_num)
  have h2 := handlePageTimeoutSecs_spec 1000000000 0 (by norm_num)
  refine ⟨⟨h1.1, ?_⟩, ?_⟩
  · have := h1.2.2 (by rw [hx]; norm_num)
    rw [hx] at this
    exact this
  · exact h2.2.1 (by rw [hy]; norm_num)

/-- C3 evaluation at the failing input: with three query parameters the
delete-all `forEach` pass keeps the second one, so the output still carries
a query parameter, contradicting the source's own comment that all query
strings are deleted. Protocol, host and path are normalized as documented. -/
theorem normalizeOutput_keeps_second_param :
    normalizeOutputPageUrl c3Input
      = ⟨"https", "www.facebook.com", "/somepage", [("b", "2")]⟩
    ∧ (normalizeOutputPageUrl c3Input).search ≠ [] := by decide

/-- C2 counterexample: normalization is not idempotent, because the first
pass keeps one of the two query parameters and the second pass then removes
it. -/
theorem normalizeOutput_not_idempotent :
    normalizeOutputPageUrl (normalizeOutputPageUrl c2Input)
      ≠ normalizeOutputPageUrl c2Input := by decide

/-- Helper: the delete-all `forEach` pass empties a searchParams list of at
most one entry. -/
theorem forEachDelete_all_short (l : List (String × String)) (h : l.length ≤ 1) :
    forEachDelete (fun _ => true) l = [] := by
  match l with
  | [] => rfl
  | [p] => simp [forEachDelete, sweepParams, List.filter]
  | p :: q :: rest => simp at h

/-- Helper: replacing a pattern that does not occur leaves the list
unchanged. -/
theorem replaceFirstSeq_of_not_contains (pat : List Char) (l : List Char)
    (h : containsSeq pat l = false) : replaceFirstSeq pat l = l := by
  induction l with
  | nil => rfl
  | cons c rest ih =>
      simp only [containsSeq, Bool.or_eq_false_iff] at h
      simp [replaceFirstSeq, h.1, ih h.2]

/-- Helper: unfolding equation for `setPathname`. -/
theorem setPathname_eq (s : String) :
    setPathname s =
      if s.data.head? = some '/' then s else String.mk ('/' :: s.data) := rfl

/-- Helper: the pathname setter always yields a slash-initial path. -/
theorem setPathname_starts (s : String) :
    (setPathname s).data.head? = some '/' := by
  rw [setPathname_eq]
  split
  · assumption
  · rfl

/-- Helper: the pathname setter is idempotent. -/
theorem setPathname_idem (s : String) :
    setPathname (setPathname s) = setPathname s := by
  rw [setPathname_eq (setPathname s), if_pos (setPathname_starts s)]

/-- C2 as amended: `normalizeForOutput` is idempotent on every URL whose
query carries at most one parameter and whose normalized path no longer
contains the slash-pg-slash substring. -/
theorem normalizeOutput_idempotent_restricted :
    ∀ u : JsUrl, u.search.length ≤ 1 →
      containsStr "/pg/" (normalizeOutputPageUrl u).pathname = false →
      normalizeOutputPageUrl (normalizeOutputPageUrl u) = normalizeOutputPageUrl u := by
  intro u h1 h2
  have hs : (normalizeOutputPageUrl u).search = [] :=
    forEachDelete_all_short u.search h1
  have e3 : forEachDelete (fun _ => true) (normalizeOutputPageUrl u).search
      = (normalizeOutputPageUrl u).search := by
    rw [hs]
    rfl
  have hrep : replaceFirstStr "/pg/" (normalizeOutputPageUrl u).pathname
      = (normalizeOutputPageUrl u).pathname := by
    unfold replaceFirstStr
    rw [replaceFirstSeq_of_not_contains _ _ h2]
  have e4 : setPathname (replaceFirstStr "/pg/" (normalizeOutputPageUrl u).pathname)
      = (normalizeOutputPageUrl u).pathname := by
    rw [hrep]
    show setPathname (setPathname (replaceFirstStr "/pg/" u.pathname))
        = setPathname (replaceFirstStr "/pg/" u.pathname)
    exact setPathname_idem _
  show JsUrl.mk "https" DESKTOP_HOST
      (setPathname (replaceFirstStr "/pg/" (normalizeOutputPageUrl u).pathname))
      (forEachDelete (fun _ => true) (normalizeOutputPageUrl u).search)
      = normalizeOutputPageUrl u
  rw [e3, e4]
  rfl

/-- Witness for C2 at a concrete input satisfying both side conditions. -/
theorem normalizeOutput_idempotent_restricted_witness :
    normalizeOutputPageUrl (normalizeOutputPageUrl ⟨"http", "facebook.com", "/pg/mypage", [("ref", "x")]⟩)
      = normalizeOutputPageUrl ⟨"http", "facebook.com", "/pg/mypage", [("ref", "x")]⟩ :=
  normalizeOutput_idempotent_restricted
    ⟨"http", "facebook.com", "/pg/mypage", [("ref", "x")]⟩ (by decide) (by decide)

/-- C5 counterexample: from the empty history, sample (scroll 100, height
500), then (scroll 200, height 1000). On the second step the source reports
`bodyChanged = false` (the shared counter was already raised to 1 by the
scroll check), while the per-signal rule of the claim reports true. -/
theorem scroll_highwater_not_per_signal :
    ((scrollStep ((scrollStep ⟨[], [], 0⟩ 100 500).1) 200 1000).2.2 = false)
    ∧ ((scrollStepPerSignal ((scrollStepPerSignal ⟨[], [], 0, 0⟩ 100 500).1) 200 1000).2.2 = true) := by
  decide

/-- Helper: testing every member different from a value is the negation of
membership. -/
theorem all_bne_eq_not_contains (l : List Int) (n : Int) :
    l.all (fun val => val != n) = !l.contains n := by
  induction l with
  | nil => rfl
  | cons c rest ih =>
      simp only [List.all_cons, List.contains_cons, ih, Bool.not_or]
      congr 1
      by_cases hc : c = n
      · subst hc
        simp
      · have h1 : (c != n) = true := bne_iff_ne.mpr hc
        have h2 : (n == c) = false := beq_eq_false_iff_ne.mpr (Ne.symm hc)
        rw [h1, h2]
        rfl

/-- C5 as amended: the two signals keep separate value sets, but the
high-water mark is one shared counter, updated by the scroll check before
the height check. A scroll sample counts as changed when the scroll set has
outgrown the shared counter and the value is new to the scroll history; a
height sample counts as changed when the height set has outgrown the
maximum of the shared counter and the scroll-set size, and the value is new
to the height history; the stored counter becomes the maximum of all
three sizes. -/
theorem isChangingStep_some (h : List Int) (lc : Nat) (n : Int) :
    isChangingStep h lc (some n)
      = (decide (lc < h.length) && !h.contains n, max lc h.length) := by
  show (if h.length ≤ lc then ((false : Bool), lc)
        else (h.all fun val => val != n, h.length))
      = (decide (lc < h.length) && !h.contains n, max lc h.length)
  by_cases hc : h.length ≤ lc
  · rw [if_pos hc]
    refine Prod.ext ?_ ?_
    · show false = (decide (lc < h.length) && !h.contains n)
      rw [decide_eq_false (by omega)]
      rfl
    · show lc = max lc h.length
      omega
  · rw [if_neg hc]
    refine Prod.ext ?_ ?_
    · show h.all (fun val => val != n) = (decide (lc < h.length) && !h.contains n)
      rw [all_bne_eq_not_contains, decide_eq_true (by omega), Bool.true_and]
    · show h.length = max lc h.length
      omega

theorem scrollStep_shared_highwater :
    ∀ (s : ScrollHistState) (ls bh : Int),
      (scrollStep s ls bh).2.1
        = (decide (s.lastCount < s.scrolls.length) && !s.scrolls.contains ls)
      ∧ (scrollStep s ls bh).2.2
        = (decide (max s.lastCount s.scrolls.length < s.heights.length) && !s.heights.contains bh)
      ∧ (scrollStep s ls bh).1.lastCount
        = max (max s.lastCount s.scrolls.length) s.heights.length
      ∧ (scrollStep s ls bh).1.scrolls = (if ls != 0 then setAdd s.scrolls ls else s.scrolls)
      ∧ (scrollStep s ls bh).1.heights = (if bh != 0 then setAdd s.heights bh else s.heights) := by
  intro s ls bh
  have hstep : scrollStep s ls bh =
      (⟨if ls != 0 then setAdd s.scrolls ls else s.scrolls,
        if bh != 0 then setAdd s.heights bh else s.heights,
        (isChangingStep s.heights (isChangingStep s.scrolls s.lastCount (some ls)).2 (some bh)).2⟩,
       (isChangingStep s.scrolls s.lastCount (some ls)).1,
       (isChangingStep s.heights (isChangingStep s.scrolls s.lastCount (some ls)).2 (some bh)).1) := rfl
  simp only [hstep, isChangingStep_some]
  exact ⟨trivial, trivial, trivial, trivial, trivial⟩

/-- Helper: the classifier body returns one of the four URL-shape labels or
an `InfoError`; the `Search` label is not among its results. -/
theorem getUrlLabelCore_cases (u : JsUrl) :
    (∃ e, getUrlLabelCore u = Except.error e)
    ∨ (∃ l, getUrlLabelCore u = Except.ok l
        ∧ (l = FbLabel.listing ∨ l = FbLabel.photo ∨ l = FbLabel.post ∨ l = FbLabel.page)) := by
  unfold getUrlLabelCore
  split_ifs
  · exact Or.inr ⟨FbLabel.listing, rfl, Or.inl rfl⟩
  · exact Or.inr ⟨FbLabel.photo, rfl, Or.inr (Or.inl rfl)⟩
  · exact Or.inr ⟨FbLabel.post, rfl, Or.inr (Or.inr (Or.inl rfl))⟩
  · exact Or.inr ⟨FbLabel.page, rfl, Or.inr (Or.inr (Or.inr rfl))⟩
  · exact Or.inl ⟨_, rfl⟩
  · exact Or.inl ⟨_, rfl⟩

/-- C9: `getUrlLabel` never produces the `Search` label; the empty string
raises an `InfoError`; and on every parseable URL it either raises an
`InfoError` or returns one of `Listing`, `Photo`, `Post`, `Page`. -/
theorem getUrlLabel_closed_label_set :
    ∀ s : String,
      getUrlLabelStr s ≠ Except.ok FbLabel.search
      ∧ (s = "" → getUrlLabelStr s
          = Except.error (UrlFailure.info ⟨"Invalid url provided", "getUrlLabel"⟩))
      ∧ (∀ u : JsUrl, parseUrl s = some u →
          (∃ e, getUrlLabelStr s = Except.error (UrlFailure.info e))
          ∨ (∃ l, getUrlLabelStr s = Except.ok l
              ∧ (l = FbLabel.listing ∨ l = FbLabel.photo ∨ l = FbLabel.post ∨ l = FbLabel.page))) := by
  intro s
  by_cases hs : s = ""
  · subst hs
    refine ⟨?_, fun _ => rfl, ?_⟩
    · intro hcontra
      simp [getUrlLabelStr] at hcontra
    · intro u hu
      have hnone : parseUrl "" = none := rfl
      rw [hnone] at hu
      exact Option.noConfusion hu
  · cases hp : parseUrl s with
    | none =>
        have hdef : getUrlLabelStr s = Except.error UrlFailure.typeError := by
          unfold getUrlLabelStr
          rw [if_neg hs, hp]
        refine ⟨by rw [hdef]; simp, fun he => absurd he hs, ?_⟩
        intro u hu
        exact Option.noConfusion hu
    | some u0 =>
        rcases getUrlLabelCore_cases u0 with ⟨e, he⟩ | ⟨l, hl, hfour⟩
        · have hdef : getUrlLabelStr s = Except.error (UrlFailure.info e) := by
            unfold getUrlLabelStr
            rw [if_neg hs, hp]
            show (match getUrlLabelCore u0 with
                  | Except.ok l => Except.ok l
                  | Except.error e => Except.error (UrlFailure.info e)) = _
            rw [he]
          refine ⟨by rw [hdef]; simp, fun hc => absurd hc hs, ?_⟩
          intro u hu
          exact Or.inl ⟨e, hdef⟩
        · have hdef : getUrlLabelStr s = Except.ok l := by
            unfold getUrlLabelStr
            rw [if_neg hs, hp]
            show (match getUrlLabelCore u0 with
                  | Except.ok l => Except.ok l
                  | Except.error e => Except.error (UrlFailure.info e)) = _
            rw [hl]
          refine ⟨?_, fun hc => absurd hc hs, ?_⟩
          · rw [hdef]
            rcases hfour with h | h | h | h <;> subst h <;> simp
          · intro u hu
            exact Or.inr ⟨l, hdef, hfour⟩

/-- Witness for C9 at concrete inputs: a listing URL is classified without
producing `Search`, and the empty string raises the `InfoError`. -/
theorem getUrlLabel_closed_label_set_witness :
    getUrlLabelStr "https://www.facebook.com/biz/place" ≠ Except.ok FbLabel.search
    ∧ getUrlLabelStr ""
        = Except.error (UrlFailure.info ⟨"Invalid url provided", "getUrlLabel"⟩)
    ∧ ((∃ e, getUrlLabelStr "https://www.facebook.com/biz/place"
          = Except.error (UrlFailure.info e))
        ∨ (∃ l, getUrlLabelStr "https://www.facebook.com/biz/place" = Except.ok l
            ∧ (l = FbLabel.listing ∨ l = FbLabel.photo ∨ l = FbLabel.post ∨ l = FbLabel.page))) :=
  ⟨(getUrlLabel_closed_label_set "https://www.facebook.com/biz/place").1,
   (getUrlLabel_closed_label_set "").2.1 rfl,
   (getUrlLabel_closed_label_set "https://www.facebook.com/biz/place").2.2
     ⟨"https", "www.facebook.com", "/biz/place", []⟩ (by decide)⟩

/-- Helper: the data of a built string. -/
theorem data_mk (l : List Char) : (String.mk l).data = l := rfl

/-- Helper: `takeWhile` runs through a prefix whose members all satisfy the
predicate. -/
theorem takeWhile_append_all (p : Char → Bool) : ∀ (a b : List Char),
    (∀ c ∈ a, p c = true) → (a ++ b).takeWhile p = a ++ b.takeWhile p := by
  intro a
  induction a with
  | nil => intro b _; simp
  | cons c a' ih =>
      intro b ha
      have hc : p c = true := ha c (List.mem_cons_self c a')
      simp only [List.cons_append, List.takeWhile_cons, hc, if_true]
      rw [ih b (fun x hx => ha x (List.mem_cons_of_mem c hx))]

/-- Helper: `takeWhile` stops at a failing head. -/
theorem takeWhile_cons_neg (p : Char → Bool) (c : Char) (b : List Char)
    (hc : p c = false) : (c :: b).takeWhile p = [] := by
  simp [List.takeWhile_cons, hc]

/-- Helper: `takeWhile` keeps a list all of whose members satisfy the
predicate. -/
theorem takeWhile_all (p : Char → Bool) : ∀ a : List Char,
    (∀ c ∈ a, p c = true) → a.takeWhile p = a := by
  intro a
  induction a with
  | nil => intro _; rfl
  | cons c a' ih =>
      intro ha
      have hc : p c = true := ha c (List.mem_cons_self c a')
      simp only [List.takeWhile_cons, hc, if_true]
      rw [ih (fun x hx => ha x (List.mem_cons_of_mem c hx))]

/-- Helper: splitting consumes a slash-free prefix up to the separator. -/
theorem splitCharAux_sep : ∀ (a : List Char), (∀ c ∈ a, c ≠ '/') → ∀ (b acc : List Char),
    splitCharAux '/' (a ++ '/' :: b) acc
      = (acc.reverse ++ a) :: splitCharAux '/' b [] := by
  intro a
  induction a with
  | nil =>
      intro _ b acc
      simp [splitCharAux]
  | cons c a' ih =>
      intro ha b acc
      have hc : c ≠ '/' := ha c (List.mem_cons_self c a')
      simp only [List.cons_append, splitCharAux, List.append_eq]
      rw [if_neg hc, ih (fun x hx => ha x (List.mem_cons_of_mem c hx)) b (c :: acc)]
      simp

/-- Helper: splitting a slash-free list yields one piece. -/
theorem splitCharAux_no_sep : ∀ (a : List Char), (∀ c ∈ a, c ≠ '/') → ∀ (acc : List Char),
    splitCharAux '/' a acc = [acc.reverse ++ a] := by
  intro a
  induction a with
  | nil => intro _ acc; simp [splitCharAux]
  | cons c a' ih =>
      intro ha acc
      have hc : c ≠ '/' := ha c (List.mem_cons_self c a')
      simp only [splitCharAux, List.append_eq]
      rw [if_neg hc, ih (fun x hx => ha x (List.mem_cons_of_mem c hx)) (c :: acc)]
      simp

/-- Helper: the split of a five-piece slash-joined list. -/
theorem splitChar_five (t1 t2 t3 t4 t5 : List Char)
    (h1 : ∀ c ∈ t1, c ≠ '/') (h2 : ∀ c ∈ t2, c ≠ '/') (h3 : ∀ c ∈ t3, c ≠ '/')
    (h4 : ∀ c ∈ t4, c ≠ '/') (h5 : ∀ c ∈ t5, c ≠ '/') :
    splitChar '/' (t1 ++ '/' :: (t2 ++ '/' :: (t3 ++ '/' :: (t4 ++ '/' :: t5))))
      = [t1, t2, t3, t4, t5] := by
  unfold splitChar
  rw [splitCharAux_sep t1 h1, splitCharAux_sep t2 h2, splitCharAux_sep t3 h3,
      splitCharAux_sep t4 h4, splitCharAux_no_sep t5 h5]
  simp

/-- Helper: the split of a four-piece slash-joined list. -/
theorem splitChar_four (t1 t2 t3 t4 : List Char)
    (h1 : ∀ c ∈ t1, c ≠ '/') (h2 : ∀ c ∈ t2, c ≠ '/') (h3 : ∀ c ∈ t3, c ≠ '/')
    (h4 : ∀ c ∈ t4, c ≠ '/') :
    splitChar '/' (t1 ++ '/' :: (t2 ++ '/' :: (t3 ++ '/' :: t4)))
      = [t1, t2, t3, t4] := by
  unfold splitChar
  rw [splitCharAux_sep t1 h1, splitCharAux_sep t2 h2, splitCharAux_sep t3 h3,
      splitCharAux_no_sep t4 h4]
  simp

/-- Helper: joining five pieces with slashes. -/
theorem intercalate_slash_five (t1 t2 t3 t4 t5 : List Char) :
    List.intercalate ['/'] [t1, t2, t3, t4, t5]
      = t1 ++ '/' :: (t2 ++ '/' :: (t3 ++ '/' :: (t4 ++ '/' :: t5))) := by
  simp [List.intercalate]

/-- Helper: joining four pieces with slashes. -/
theorem intercalate_slash_four (t1 t2 t3 t4 : List Char) :
    List.intercalate ['/'] [t1, t2, t3, t4]
      = t1 ++ '/' :: (t2 ++ '/' :: (t3 ++ '/' :: t4)) := by
  simp [List.intercalate]

/-- Helper: parsing a canonical https URL with a non-empty host, a
slash-initial path free of question marks, and no query. -/
theorem parseUrlChars_https (host rest : List Char)
    (hh : host ≠ [])
    (hhost : ∀ c ∈ host, (c != '/' && c != '?') = true)
    (hrest : ∀ c ∈ rest, (c != '?') = true) :
    parseUrlChars ("https".data ++ ':' :: '/' :: '/' :: (host ++ '/' :: rest))
      = some ⟨"https", String.mk host, String.mk ('/' :: rest), []⟩ := by
  have hsch : (("https".data ++ ':' :: '/' :: '/' :: (host ++ '/' :: rest)).takeWhile
      (fun c => c != ':')) = "https".data := by
    rw [takeWhile_append_all _ _ _ (by decide),
        takeWhile_cons_neg _ _ _ (by decide), List.append_nil]
  have hhe : host.isEmpty = false := by
    cases host with
    | nil => exact absurd rfl hh
    | cons hd tl => rfl
  have hhostw : ((host ++ '/' :: rest).takeWhile (fun c => c != '/' && c != '?')) = host := by
    rw [takeWhile_append_all _ _ _ hhost,
        takeWhile_cons_neg _ _ _ (by decide), List.append_nil]
  have hpathw : (('/' :: rest).takeWhile (fun c => c != '?')) = '/' :: rest := by
    refine takeWhile_all _ _ ?_
    intro c hc
    rcases List.mem_cons.mp hc with h | h
    · subst h; decide
    · exact hrest c h
  simp only [parseUrlChars, hsch]
  rw [show ("https".data).isEmpty = false from rfl]
  simp only [Bool.false_eq_true, if_false]
  rw [List.drop_left]
  simp only [hhostw, hhe, Bool.false_eq_true, if_false, List.drop_left, hpathw]
  rw [List.drop_length]
  simp

/-- Helper: appending built strings appends their data. -/
theorem mk_append_mk (a b : List Char) : String.mk a ++ String.mk b = String.mk (a ++ b) := rfl

/-- C7: on a page URL `https://<host>/<name>` with a well-formed page name
and no query, fan-out with the default section list returns exactly one
`home` task for the computed base URL followed by one task per section in
order, each section URL being the base URL with slash and section name
appended, every task on the mobile host and flagged `useMobile`. -/
theorem generateSubpagesFromUrl_default_plan :
    ∀ (host0 name : String),
      name.data ≠ [] →
      (∀ c ∈ name.data, c ≠ '/' ∧ c ≠ '?') →
      ∃ base : String,
        generateSubpagesFromUrl ⟨"https", host0, String.mk ('/' :: name.data), []⟩
            [FbSection.posts, FbSection.about, FbSection.reviews, FbSection.services]
          = some
            [⟨base, FbSection.home, true⟩,
             ⟨base ++ "/posts", FbSection.posts, true⟩,
             ⟨base ++ "/about", FbSection.about, true⟩,
             ⟨base ++ "/reviews", FbSection.reviews, true⟩,
             ⟨base ++ "/services", FbSection.services, true⟩]
        ∧ ∃ bu : JsUrl, parseUrl base = some bu ∧ bu.hostname = MOBILE_HOST := by
  intro host0 name hne hchars
  have hnd_slash : ∀ c ∈ name.data, c ≠ '/' := fun c hc => (hchars c hc).1
  have hnd_q : ∀ c ∈ name.data, (c != '?') = true :=
    fun c hc => bne_iff_ne.mpr (hchars c hc).2
  have hndE : name.data.isEmpty = false := by
    cases hx : name.data with
    | nil => exact absurd hx hne
    | cons a b => rfl
  by_cases hpg : ['p', 'g'].isPrefixOf name.data = true
  · -- the path already starts with the browsing prefix and is kept as is
    have hsw : strStartsWith (String.mk ('/' :: name.data)) "/pg" = true := by
      show ("/pg".data.isPrefixOf ('/' :: name.data)) = true
      rw [show "/pg".data = ['/', 'p', 'g'] from rfl]
      simp only [List.isPrefixOf, Bool.and_eq_true, beq_iff_eq]
      exact ⟨trivial, hpg⟩
    have hnm : normalizeToMobilePageUrl ⟨"https", host0, String.mk ('/' :: name.data), []⟩
        (FilterParams.flag true)
        = ⟨"https", MOBILE_HOST, String.mk ('/' :: name.data), []⟩ := by
      unfold normalizeToMobilePageUrl
      simp only [hsw, if_true]
      rfl
    have hser : serializeUrl ⟨"https", MOBILE_HOST, String.mk ('/' :: name.data), []⟩
        = String.mk ("https".data ++ ':' :: '/' :: '/'
            :: (MOBILE_HOST.data ++ '/' :: name.data)) := by
      unfold serializeUrl
      congr 1
      simp [serializeQueryChars]
    have hshape : ("https".data ++ ':' :: '/' :: '/' :: (MOBILE_HOST.data ++ '/' :: name.data))
        = (['h', 't', 't', 'p', 's', ':'] ++ '/' :: ([] ++ '/'
            :: (MOBILE_HOST.data ++ '/' :: name.data))) := by
      rw [show "https".data = ['h', 't', 't', 'p', 's'] from rfl]
      simp
    have hsplit4 : splitChar '/' ("https".data ++ ':' :: '/' :: '/'
          :: (MOBILE_HOST.data ++ '/' :: name.data))
        = [['h', 't', 't', 'p', 's', ':'], [], MOBILE_HOST.data, name.data] := by
      rw [hshape]
      exact splitChar_four _ _ _ _ (by decide) (by simp) (by decide) hnd_slash
    have hbase : splitJoin5 (String.mk ("https".data ++ ':' :: '/' :: '/'
          :: (MOBILE_HOST.data ++ '/' :: name.data)))
        = String.mk ("https".data ++ ':' :: '/' :: '/'
            :: (MOBILE_HOST.data ++ '/' :: name.data)) := by
      unfold splitJoin5
      rw [data_mk, hsplit4]
      rw [show List.take 5 [['h', 't', 't', 'p', 's', ':'], [], MOBILE_HOST.data, name.data]
          = [['h', 't', 't', 'p', 's', ':'], [], MOBILE_HOST.data, name.data] from rfl]
      rw [intercalate_slash_four, ← hshape]
    have hparse : parseUrl (String.mk ("https".data ++ ':' :: '/' :: '/'
          :: (MOBILE_HOST.data ++ '/' :: name.data)))
        = some ⟨"https", MOBILE_HOST, String.mk ('/' :: name.data), []⟩ := by
      show parseUrlChars ("https".data ++ ':' :: '/' :: '/'
          :: (MOBILE_HOST.data ++ '/' :: name.data)) = _
      exact parseUrlChars_https MOBILE_HOST.data name.data (by decide) (by decide) hnd_q
    refine ⟨String.mk ("https".data ++ ':' :: '/' :: '/'
        :: (MOBILE_HOST.data ++ '/' :: name.data)), ?_,
      ⟨⟨"https", MOBILE_HOST, String.mk ('/' :: name.data), []⟩, hparse, rfl⟩⟩
    simp only [generateSubpagesFromUrl, hnm, hser, hbase, hparse]
    rw [show ("/posts" : String) = String.mk ['/', 'p', 'o', 's', 't', 's'] from rfl,
        show ("/about" : String) = String.mk ['/', 'a', 'b', 'o', 'u', 't'] from rfl,
        show ("/reviews" : String) = String.mk ['/', 'r', 'e', 'v', 'i', 'e', 'w', 's'] from rfl,
        show ("/services" : String) = String.mk ['/', 's', 'e', 'r', 'v', 'i', 'c', 'e', 's'] from rfl]
    simp only [mk_append_mk]
    simp [List.mapM.loop, FbSection.toStr, serializeUrl, serializeQueryChars]
  · -- the path gets the browsing prefix
    have hpg' : (['p', 'g'].isPrefixOf name.data) = false := by
      cases hx : ['p', 'g'].isPrefixOf name.data with
      | false => rfl
      | true => exact absurd hx hpg
    have hsw : strStartsWith (String.mk ('/' :: name.data)) "/pg" = false := by
      show ("/pg".data.isPrefixOf ('/' :: name.data)) = false
      rw [show "/pg".data = ['/', 'p', 'g'] from rfl]
      simp only [List.isPrefixOf, hpg', Bool.and_false]
    have hsplit : splitChar '/' ('/' :: name.data) = [[], name.data] := by
      show splitCharAux '/' ([] ++ '/' :: name.data) [] = _
      rw [splitCharAux_sep [] (by simp) name.data [],
          splitCharAux_no_sep name.data hnd_slash []]
      simp
    have hnm : normalizeToMobilePageUrl ⟨"https", host0, String.mk ('/' :: name.data), []⟩
        (FilterParams.flag true)
        = ⟨"https", MOBILE_HOST, String.mk ('/' :: 'p' :: 'g' :: '/' :: name.data), []⟩ := by
      unfold normalizeToMobilePageUrl
      simp only [hsw, Bool.false_eq_true, if_false, data_mk, hsplit]
      rw [show ([[], name.data].filter (fun seg => !seg.isEmpty))
          = [name.data] from by simp [List.filter, hndE]]
      rw [show List.intercalate ['/'] [name.data] = name.data from by simp [List.intercalate]]
      rfl
    have hser : serializeUrl ⟨"https", MOBILE_HOST,
          String.mk ('/' :: 'p' :: 'g' :: '/' :: name.data), []⟩
        = String.mk ("https".data ++ ':' :: '/' :: '/'
            :: (MOBILE_HOST.data ++ '/' :: ('p' :: 'g' :: '/' :: name.data))) := by
      unfold serializeUrl
      congr 1
      simp [serializeQueryChars]
    have hshape : ("https".data ++ ':' :: '/' :: '/'
          :: (MOBILE_HOST.data ++ '/' :: ('p' :: 'g' :: '/' :: name.data)))
        = (['h', 't', 't', 'p', 's', ':'] ++ '/' :: ([] ++ '/'
            :: (MOBILE_HOST.data ++ '/' :: (['p', 'g'] ++ '/' :: name.data)))) := by
      rw [show "https".data = ['h', 't', 't', 'p', 's'] from rfl]
      simp
    have hsplit5 : splitChar '/' ("https".data ++ ':' :: '/' :: '/'
          :: (MOBILE_HOST.data ++ '/' :: ('p' :: 'g' :: '/' :: name.data)))
        = [['h', 't', 't', 'p', 's', ':'], [], MOBILE_HOST.data, ['p', 'g'], name.data] := by
      rw [hshape]
      exact splitChar_five _ _ _ _ _ (by decide) (by simp) (by decide) (by decide) hnd_slash
    have hbase : splitJoin5 (String.mk ("https".data ++ ':' :: '/' :: '/'
          :: (MOBILE_HOST.data ++ '/' :: ('p' :: 'g' :: '/' :: name.data))))
        = String.mk ("https".data ++ ':' :: '/' :: '/'
            :: (MOBILE_HOST.data ++ '/' :: ('p' :: 'g' :: '/' :: name.data))) := by
      unfold splitJoin5
      rw [data_mk, hsplit5]
      rw [show List.take 5
            [['h', 't', 't', 'p', 's', ':'], [], MOBILE_HOST.data, ['p', 'g'], name.data]
          = [['h', 't', 't', 'p', 's', ':'], [], MOBILE_HOST.data, ['p', 'g'], name.data]
          from rfl]
      rw [intercalate_slash_five, ← hshape]
    have hrest : ∀ c ∈ ('p' :: 'g' :: '/' :: name.data), (c != '?') = true := by
      intro c hc
      simp only [List.mem_cons] at hc
      rcases hc with rfl | rfl | rfl | h
      · decide
      · decide
      · decide
      · exact hnd_q c h
    have hparse : parseUrl (String.mk ("https".data ++ ':' :: '/' :: '/'
          :: (MOBILE_HOST.data ++ '/' :: ('p' :: 'g' :: '/' :: name.data))))
        = some ⟨"https", MOBILE_HOST, String.mk ('/' :: 'p' :: 'g' :: '/' :: name.data), []⟩ := by
      show parseUrlChars ("https".data ++ ':' :: '/' :: '/'
          :: (MOBILE_HOST.data ++ '/' :: ('p' :: 'g' :: '/' :: name.data))) = _
      exact parseUrlChars_https MOBILE_HOST.data ('p' :: 'g' :: '/' :: name.data)
        (by decide) (by decide) hrest
    refine ⟨String.mk ("https".data ++ ':' :: '/' :: '/'
        :: (MOBILE_HOST.data ++ '/' :: ('p' :: 'g' :: '/' :: name.data))), ?_,
      ⟨⟨"https", MOBILE_HOST, String.mk ('/' :: 'p' :: 'g' :: '/' :: name.data), []⟩, hparse, rfl⟩⟩
    simp only [generateSubpagesFromUrl, hnm, hser, hbase, hparse]
    rw [show ("/posts" : String) = String.mk ['/', 'p', 'o', 's', 't', 's'] from rfl,
        show ("/about" : String) = String.mk ['/', 'a', 'b', 'o', 'u', 't'] from rfl,
        show ("/reviews" : String) = String.mk ['/', 'r', 'e', 'v', 'i', 'e', 'w', 's'] from rfl,
        show ("/services" : String) = String.mk ['/', 's', 'e', 'r', 'v', 'i', 'c', 'e', 's'] from rfl]
    simp only [mk_append_mk]
    simp [List.mapM.loop, FbSection.toStr, serializeUrl, serializeQueryChars]

/-- Witness for C7 at a concrete page URL. -/
theorem generateSubpagesFromUrl_default_plan_witness :
    ∃ base : String,
      generateSubpagesFromUrl ⟨"https", "www.facebook.com", String.mk ('/' :: "somepage".data), []⟩
          [FbSection.posts, FbSection.about, FbSection.reviews, FbSection.services]
        = some
          [⟨base, FbSection.home, true⟩,
           ⟨base ++ "/posts", FbSection.posts, true⟩,
           ⟨base ++ "/about", FbSection.about, true⟩,
           ⟨base ++ "/reviews", FbSection.reviews, true⟩,
           ⟨base ++ "/services", FbSection.services, true⟩]
      ∧ ∃ bu : JsUrl, parseUrl base = some bu ∧ bu.hostname = MOBILE_HOST :=
  generateSubpagesFromUrl_default_plan "www.facebook.com" "somepage" (by decide)
    (by decide)
